import Mathlib

/-!
Verification of the sprint game session manager of the sokoban-project
backend (`src/index.js`, lines 560-785).

The sprint subsystem keeps two process-wide `Map`s (`sprintGames`,
`activePlayers`), a SQLite table `sprint_results`, and a set of socket
handlers (`join-sprint`, `tap`, `disconnect`) plus timer-driven helpers
(`startSprintCountdown`, `startSprintGame`, `endSprintGame`) and two HTTP
endpoints (`POST /api/sprint/start`, `GET /api/sprint/results/:gameId`).

JavaScript `Map`s are modelled as association lists in insertion order:
`Map.prototype.set` replaces the value in place when the key is present
(keeping its position) and appends otherwise; `Map.prototype.delete`
removes the entry; `Map.prototype.values()` iterates in insertion order.
Timer callbacks are modelled as explicit events (`tick`, `endWindow`,
`evict`); `Date.now()` is an explicit `now : Nat` argument.
-/

/-- Status strings of a sprint game: `'waiting' | 'countdown' | 'active' | 'finished'`. -/
inductive GameStatus where
  | waiting
  | countdown
  | active
  | finished
deriving DecidableEq, Repr

/-- A player record stored in `game.players`
(`{ id: socket.id, username, taps: 0, connected: true }`). -/
structure Player where
  id : String
  username : String
  taps : Nat
  connected : Bool
deriving DecidableEq, Repr

/-- One sprint game's state (`gameState` object created in `POST /api/sprint/start`).
`countdown` is an `Int` because the tick handler decrements it below zero. -/
structure GameState where
  id : String
  status : GameStatus
  players : List (String × Player)
  startTime : Option Nat
  endTime : Option Nat
  countdown : Int
  gameDuration : Nat
deriving DecidableEq, Repr

/-- Entry of the `activePlayers` map (`{ gameId, username }`); `username` is the raw
(possibly absent) field of the join payload. -/
structure PlayerInfo where
  gameId : String
  username : Option String
deriving DecidableEq, Repr

/-- A row of the `sprint_results` table: `(game_id, user_id, taps)`.
`user_id` is nullable. -/
structure ResultRow where
  game_id : String
  user_id : Option Nat
  taps : Nat
deriving DecidableEq, Repr

/-- Payload of a `join-sprint` event. The handler destructures only
`{ gameId, username }`; `userId` models a resolved authenticated identity that a
caller may hold (the server's JWT layer can resolve it for HTTP routes), which the
sprint join handler never reads. -/
structure JoinData where
  gameId : String
  username : Option String
  userId : Option Nat
deriving DecidableEq, Repr

/-- The whole sprint-relevant server state: the two process-wide maps and the
durable `sprint_results` table. -/
structure ServerState where
  sprintGames : List (String × GameState)
  activePlayers : List (String × PlayerInfo)
  db : List ResultRow
deriving DecidableEq, Repr

/-- Observable socket emissions of the sprint subsystem. The `countdownTick`
payload also carries the constant string `status: 'countdown'`, omitted here. -/
inductive Emission where
  | errorMsg (sid : String) (message : String)
  | playersUpdated (gid : String) (players : List Player) (gameStatus : GameStatus)
  | countdownTick (gid : String) (seconds : Int)
  | gameStarted (gid : String) (duration : Nat)
  | tapUpdate (gid : String) (playerId : String) (username : String) (taps : Nat)
  | gameEnded (gid : String) (results : List Player) (winner : Option Player)
deriving DecidableEq, Repr

/-- `Map.prototype.get`. -/
def mapGet {α : Type} : List (String × α) → String → Option α
  | [], _ => none
  | p :: ps, k => if p.1 = k then some p.2 else mapGet ps k

/-- `Map.prototype.set`: replaces in place when the key is present (keeping
insertion order), appends otherwise. -/
def mapSet {α : Type} : List (String × α) → String → α → List (String × α)
  | [], k, v => [(k, v)]
  | p :: ps, k, v => if p.1 = k then (k, v) :: ps else p :: mapSet ps k v

/-- `Map.prototype.delete`. -/
def mapDelete {α : Type} : List (String × α) → String → List (String × α)
  | [], _ => []
  | p :: ps, k => if p.1 = k then mapDelete ps k else p :: mapDelete ps k

/-- `Array.from(m.values())`: the values in insertion order. -/
def mapValues {α : Type} (m : List (String × α)) : List α :=
  m.map (fun p => p.2)

/-- Insert an element into a list that is sorted descending by `key`, after every
element with a strictly larger key and before the first element whose key is ≤ its
own — the insertion step of a stable descending sort. -/
def insDesc {α : Type} (key : α → Nat) (x : α) : List α → List α
  | [] => [x]
  | y :: ys => if key x < key y then y :: insDesc key x ys else x :: y :: ys

/-- Stable sort, descending by `key`. `Array.prototype.sort` is stable
(ECMAScript 2019), so `players.sort((a, b) => b.taps - a.taps)` is the stable
descending sort by `taps`; stable sorting under a fixed preorder is unique, so any
stable implementation is a faithful model. -/
def sortDescBy {α : Type} (key : α → Nat) : List α → List α
  | [] => []
  | x :: xs => insDesc key x (sortDescBy key xs)

/-- Default display name `Player_${socket.id.substr(0, 6)}`. -/
def defaultName (sid : String) : String :=
  "Player_" ++ sid.take 6

/-- JavaScript `username || default`: `undefined` and the empty string are both
falsy. -/
def jsOrName (u : Option String) (d : String) : String :=
  match u with
  | none => d
  | some s => if s = "" then d else s

/-- The `gameState` object built by `POST /api/sprint/start`: status `waiting`,
empty players, 5-second countdown, 15000 ms game duration. -/
def initGame (gid : String) : GameState :=
  { id := gid,
    status := GameStatus.waiting,
    players := [],
    startTime := none,
    endTime := none,
    countdown := 5,
    gameDuration := 15000 }

/-- `POST /api/sprint/start`: allocate a fresh game in the registry. The id is a
parameter (the source draws a random unique string). -/
def createGame (st : ServerState) (gid : String) : ServerState :=
  { st with sprintGames := mapSet st.sprintGames gid (initGame gid) }

/-- `startSprintCountdown(gameId)`: looks the game up (`if (!game) return;`),
sets `status = 'countdown'` and `countdown = 5`, and schedules the 1-second
interval (ticks are modelled as separate `sprintTick` events). -/
def startSprintCountdown (st : ServerState) (gid : String) : ServerState :=
  match mapGet st.sprintGames gid with
  | none => st
  | some g =>
    { st with sprintGames :=
        mapSet st.sprintGames gid { g with status := GameStatus.countdown, countdown := 5 } }

/-- `startSprintGame(gameId)`: looks the game up (`if (!game) return;`), sets
`status = 'active'`, `startTime = Date.now()`, `endTime = startTime + gameDuration`,
emits `game-started` with the duration, and schedules the end-of-window timeout
(modelled as an `endWindow` event). -/
def startSprintGame (st : ServerState) (gid : String) (now : Nat) : ServerState × List Emission :=
  match mapGet st.sprintGames gid with
  | none => (st, [])
  | some g =>
    let g1 : GameState :=
      { g with status := GameStatus.active,
               startTime := some now,
               endTime := some (now + g.gameDuration) }
    ({ st with sprintGames := mapSet st.sprintGames gid g1 },
     [Emission.gameStarted gid g.gameDuration])

/-- The row `INSERT INTO sprint_results (game_id, user_id, taps) VALUES (?, ?, ?)`
attempted for one player during `endSprintGame`; the source passes the literal
`null` for `user_id` (`// user_id is null for anonymous players`). -/
def mkRow (gid : String) (p : Player) : ResultRow :=
  { game_id := gid, user_id := none, taps := p.taps }

/-- `endSprintGame(gameId)`: looks the game up (`if (!game) return;`), sets
`status = 'finished'`, fires one `db.run` INSERT per player (fire-and-forget:
each callback only logs on error), sorts the player array descending by taps,
takes `sortedPlayers[0]` as the winner (`undefined` on an empty array, modelled
as `none`), and emits `game-ended` regardless of the write outcomes. `ok` says
which INSERT attempts the database accepts; rejected attempts only log. Eviction
is scheduled 30 s later (modelled as the `evict` event). -/
def endSprintGame (ok : ResultRow → Bool) (st : ServerState) (gid : String) :
    ServerState × List Emission :=
  match mapGet st.sprintGames gid with
  | none => (st, [])
  | some g =>
    ({ st with
         sprintGames := mapSet st.sprintGames gid { g with status := GameStatus.finished },
         db := st.db ++ ((mapValues g.players).map (mkRow gid)).filter ok },
     [Emission.gameEnded gid (sortDescBy Player.taps (mapValues g.players))
        (sortDescBy Player.taps (mapValues g.players)).head?])

/-- The 30-second cleanup `setTimeout` of `endSprintGame`: `sprintGames.delete(gameId)`. -/
def evictGame (st : ServerState) (gid : String) : ServerState :=
  { st with sprintGames := mapDelete st.sprintGames gid }

/-- One firing of the 1-second interval scheduled by `startSprintCountdown`: the
callback emits the current `game.countdown`, then decrements it, and when it has
passed below zero clears the interval and calls `startSprintGame`. The callback
holds the game object by closure reference; the registry entry is that same
object, so the mutation is written through. The interval is always cleared
(6 ticks, within 6 s of the countdown start) long before the 30-second
post-finish eviction, so a live tick never observes a missing registry entry;
the `none` branch below is therefore unreachable in source executions. -/
def sprintTick (st : ServerState) (gid : String) (now : Nat) : ServerState × List Emission :=
  match mapGet st.sprintGames gid with
  | none => (st, [])
  | some g =>
    let st1 : ServerState :=
      { st with sprintGames := mapSet st.sprintGames gid { g with countdown := g.countdown - 1 } }
    if g.countdown - 1 < 0 then
      let r := startSprintGame st1 gid now
      (r.1, Emission.countdownTick gid g.countdown :: r.2)
    else
      (st1, [Emission.countdownTick gid g.countdown])

/-- The `join-sprint` handler: unknown id emits `error 'Game not found'`; status
`active` or `finished` emits `error 'Game already started or finished'`; otherwise
the connection is registered with `taps = 0`, the tracker entry is set, the
updated roster and status are broadcast, and — when the game is still `waiting`
and has at least one player — `startSprintCountdown` runs. -/
def joinSprint (st : ServerState) (sid : String) (d : JoinData) : ServerState × List Emission :=
  match mapGet st.sprintGames d.gameId with
  | none => (st, [Emission.errorMsg sid "Game not found"])
  | some g =>
    if g.status ≠ GameStatus.waiting ∧ g.status ≠ GameStatus.countdown then
      (st, [Emission.errorMsg sid "Game already started or finished"])
    else
      let p : Player :=
        { id := sid, username := jsOrName d.username (defaultName sid),
          taps := 0, connected := true }
      let g1 : GameState := { g with players := mapSet g.players sid p }
      let st1 : ServerState :=
        { st with sprintGames := mapSet st.sprintGames d.gameId g1,
                  activePlayers := mapSet st.activePlayers sid ⟨d.gameId, d.username⟩ }
      let ems := [Emission.playersUpdated d.gameId (mapValues g1.players) g1.status]
      if g1.players.length ≥ 1 ∧ g1.status = GameStatus.waiting then
        (startSprintCountdown st1 d.gameId, ems)
      else
        (st1, ems)

/-- The `tap` handler: `if (!game || game.status !== 'active') return;` then the
player lookup; a registered player's `taps` is incremented and the new count
broadcast; everything else is a silent no-op. -/
def tapStep (st : ServerState) (sid gid : String) : ServerState × List Emission :=
  match mapGet st.sprintGames gid with
  | none => (st, [])
  | some g =>
    if g.status ≠ GameStatus.active then (st, [])
    else
      match mapGet g.players sid with
      | none => (st, [])
      | some p =>
        let g1 : GameState :=
          { g with players := mapSet g.players sid { p with taps := p.taps + 1 } }
        ({ st with sprintGames := mapSet st.sprintGames gid g1 },
         [Emission.tapUpdate gid sid p.username (p.taps + 1)])

/-- The `disconnect` handler: looks the connection up in `activePlayers`; when
tracked and the game still exists, deletes the player from the game, deletes the
tracker entry and broadcasts the roster. Note both deletions sit inside
`if (game)`: when the game is already evicted, nothing is removed. -/
def disconnectStep (st : ServerState) (sid : String) : ServerState × List Emission :=
  match mapGet st.activePlayers sid with
  | none => (st, [])
  | some info =>
    match mapGet st.sprintGames info.gameId with
    | none => (st, [])
    | some g =>
      let g1 : GameState := { g with players := mapDelete g.players sid }
      ({ st with sprintGames := mapSet st.sprintGames info.gameId g1,
                 activePlayers := mapDelete st.activePlayers sid },
       [Emission.playersUpdated info.gameId (mapValues g1.players) g1.status])

/-- Response of `GET /api/sprint/results/:gameId` (the route has no
session-not-found branch; `notFound` exists to state the spec's claim). -/
inductive ResultsResponse where
  | ok (results : List ResultRow)
  | notFound
deriving DecidableEq, Repr

/-- `GET /api/sprint/results/:gameId`: `SELECT ... FROM sprint_results WHERE
game_id = ? ORDER BY taps DESC`. The route reads only the durable table and
always answers with the (possibly empty) row list. -/
def getSprintResults (db : List ResultRow) (gid : String) : ResultsResponse :=
  ResultsResponse.ok (sortDescBy ResultRow.taps (db.filter (fun r => r.game_id = gid)))

/-- All INSERT attempts succeed. -/
def allOk : ResultRow → Bool := fun _ => true

/-- The event alphabet of the sprint subsystem: inbound socket events, the two
HTTP-triggered operations, and the timer callbacks. -/
inductive Event where
  | create (gid : String)
  | join (sid : String) (d : JoinData)
  | tap (sid : String) (gid : String)
  | disconnect (sid : String)
  | tick (gid : String) (now : Nat)
  | endWindow (gid : String)
  | evict (gid : String)
deriving DecidableEq, Repr

/-- Dispatch one event to its handler. -/
def step (st : ServerState) : Event → ServerState × List Emission
  | Event.create gid => (createGame st gid, [])
  | Event.join sid d => joinSprint st sid d
  | Event.tap sid gid => tapStep st sid gid
  | Event.disconnect sid => disconnectStep st sid
  | Event.tick gid now => sprintTick st gid now
  | Event.endWindow gid => endSprintGame allOk st gid
  | Event.evict gid => (evictGame st gid, [])

/-- Run a sequence of tap events (states only). -/
def applyTaps : ServerState → List (String × String) → ServerState
  | st, [] => st
  | st, t :: ts => applyTaps (tapStep st t.1 t.2).1 ts

/-- The game registered under `gid`, if any. -/
def gameOf (st : ServerState) (gid : String) : Option GameState :=
  mapGet st.sprintGames gid

/-- The status of the game registered under `gid`. -/
def statusOf (st : ServerState) (gid : String) : Option GameStatus :=
  (gameOf st gid).map (fun g => g.status)

/-- The players map of the game registered under `gid` (empty when absent). -/
def playersMap (st : ServerState) (gid : String) : List (String × Player) :=
  match gameOf st gid with
  | none => []
  | some g => g.players

/-- The countdown value of the game registered under `gid`. -/
def countdownOf (st : ServerState) (gid : String) : Option Int :=
  (gameOf st gid).map (fun g => g.countdown)

/-- The tap count of connection `sid` in session `gid`. -/
def tapsOf (st : ServerState) (gid sid : String) : Option Nat :=
  (gameOf st gid).bind (fun g => (mapGet g.players sid).map (fun p => p.taps))

/-- A tap event `(sid, gid)` is accepted: the session exists, is `active`, and the
connection is a registered player. -/
def tapAccepted (st : ServerState) (sid gid : String) : Bool :=
  match mapGet st.sprintGames gid with
  | none => false
  | some g => decide (g.status = GameStatus.active) && (mapGet g.players sid).isSome

/-- The empty server state at process start. -/
def emptyState : ServerState := ⟨[], [], []⟩

/-- Run `n` countdown ticks for `gid` (states only). -/
def tickRun (gid : String) (now : Nat) : ServerState → Nat → ServerState
  | st, 0 => st
  | st, n + 1 => tickRun gid now (sprintTick st gid now).1 n

/-- Scenario: create session `g`, join `alice` then `bob`. -/
def sJoined : ServerState :=
  (joinSprint (joinSprint (createGame emptyState "g") "a" ⟨"g", some "alice", none⟩).1
    "b" ⟨"g", some "bob", none⟩).1

/-- Scenario: after the six countdown ticks, the session is `active`. -/
def sActive : ServerState := tickRun "g" 100 sJoined 6

/-- Scenario: 7 taps from `alice`, 3 from `bob` while `active`. -/
def sTapped : ServerState :=
  applyTaps sActive
    [("a", "g"), ("a", "g"), ("a", "g"), ("a", "g"), ("a", "g"), ("a", "g"), ("a", "g"),
     ("b", "g"), ("b", "g"), ("b", "g")]

/-- Scenario: the end-of-window callback has fired; the session is `finished`. -/
def sFinished : ServerState := (endSprintGame allOk sTapped "g").1

/-- Scenario: the 30-second cleanup has evicted the session. -/
def sEvicted : ServerState := evictGame sFinished "g"

/-- Scenario: a caller holding a resolved identity (`userId = 7`) joins session
`h`, taps twice, and the window ends. -/
def sAuthEnd : ServerState :=
  (endSprintGame allOk
    (applyTaps
      (tickRun "h" 50 (joinSprint (createGame emptyState "h") "c" ⟨"h", some "carol", some 7⟩).1 6)
      [("c", "h"), ("c", "h")])
    "h").1

/-! ### Lemmas about the map operations -/

theorem mapGet_set_self {α : Type} (m : List (String × α)) (k : String) (v : α) :
    mapGet (mapSet m k v) k = some v := by
  induction m with
  | nil => simp [mapSet, mapGet]
  | cons p ps ih =>
    by_cases h : p.1 = k
    · simp [mapSet, h, mapGet]
    · simp [mapSet, h, mapGet, ih]

theorem mapGet_set_other {α : Type} (m : List (String × α)) (k k2 : String) (v : α)
    (h : k2 ≠ k) : mapGet (mapSet m k v) k2 = mapGet m k2 := by
  induction m with
  | nil => simp [mapSet, mapGet, Ne.symm h]
  | cons p ps ih =>
    by_cases hp : p.1 = k
    · simp [mapSet, hp, mapGet, Ne.symm h]
    · simp [mapSet, hp, mapGet, ih]

theorem mapGet_delete_self {α : Type} (m : List (String × α)) (k : String) :
    mapGet (mapDelete m k) k = none := by
  induction m with
  | nil => simp [mapDelete, mapGet]
  | cons p ps ih =>
    by_cases h : p.1 = k
    · simp [mapDelete, h, ih]
    · simp [mapDelete, h, mapGet, ih]

theorem mapGet_delete_other {α : Type} (m : List (String × α)) (k k2 : String)
    (h : k2 ≠ k) : mapGet (mapDelete m k) k2 = mapGet m k2 := by
  induction m with
  | nil => simp [mapDelete]
  | cons p ps ih =>
    by_cases hp : p.1 = k
    · simp [mapDelete, hp, mapGet, Ne.symm h, ih]
    · simp [mapDelete, hp, mapGet, ih]

theorem mapSet_length_pos {α : Type} (m : List (String × α)) (k : String) (v : α) :
    1 ≤ (mapSet m k v).length := by
  induction m with
  | nil => simp [mapSet]
  | cons p ps ih =>
    by_cases h : p.1 = k <;> simp [mapSet, h]

/-! ### Lemmas about the stable descending sort -/

theorem insDesc_perm {α : Type} (key : α → Nat) (x : α) (l : List α) :
    List.Perm (insDesc key x l) (x :: l) := by
  induction l with
  | nil => simp [insDesc]
  | cons y ys ih =>
    by_cases h : key x < key y
    · simp only [insDesc, if_pos h]
      exact List.Perm.trans (List.Perm.cons y ih) (List.Perm.swap x y ys)
    · simp [insDesc, h]

theorem sortDescBy_perm {α : Type} (key : α → Nat) (l : List α) :
    List.Perm (sortDescBy key l) l := by
  induction l with
  | nil => simp [sortDescBy]
  | cons x xs ih =>
    exact List.Perm.trans (insDesc_perm key x (sortDescBy key xs)) (List.Perm.cons x ih)

theorem insDesc_sorted {α : Type} (key : α → Nat) (x : α) (l : List α)
    (h : List.Sorted (fun a b => key b ≤ key a) l) :
    List.Sorted (fun a b => key b ≤ key a) (insDesc key x l) := by
  induction l with
  | nil => simp [insDesc]
  | cons y ys ih =>
    rw [List.sorted_cons] at h
    by_cases hlt : key x < key y
    · simp only [insDesc, if_pos hlt]
      rw [List.sorted_cons]
      refine ⟨?_, ih h.2⟩
      intro b hb
      have hmem : b = x ∨ b ∈ ys := by
        have := (insDesc_perm key x ys).mem_iff.mp hb
        simpa using this
      rcases hmem with rfl | hmem
      · exact Nat.le_of_lt hlt
      · exact h.1 b hmem
    · simp only [insDesc, if_neg hlt]
      rw [List.sorted_cons]
      refine ⟨?_, ?_⟩
      · intro b hb
        rcases List.mem_cons.mp hb with rfl | hmem
        · exact Nat.le_of_not_lt hlt
        · exact Nat.le_trans (h.1 b hmem) (Nat.le_of_not_lt hlt)
      · rw [List.sorted_cons]
        exact ⟨h.1, h.2⟩

theorem sortDescBy_sorted {α : Type} (key : α → Nat) (l : List α) :
    List.Sorted (fun a b => key b ≤ key a) (sortDescBy key l) := by
  induction l with
  | nil => simp [sortDescBy]
  | cons x xs ih => exact insDesc_sorted key x (sortDescBy key xs) ih

theorem filter_insDesc {α : Type} (key : α → Nat) (x : α) (l : List α) (n : Nat) :
    (insDesc key x l).filter (fun z => key z == n)
      = if key x = n then x :: l.filter (fun z => key z == n)
        else l.filter (fun z => key z == n) := by
  induction l with
  | nil => by_cases h : key x = n <;> simp [insDesc, h]
  | cons y ys ih =>
    by_cases hlt : key x < key y
    · simp only [insDesc, if_pos hlt, List.filter_cons]
      by_cases hx : key x = n
      · have hy : ¬ key y = n := by
          intro hyn
          exact absurd hlt (by simp [hx, hyn])
        simp [hx, hy, ih]
      · by_cases hy : key y = n <;> simp [hx, hy, ih]
    · simp only [insDesc, if_neg hlt, List.filter_cons]
      by_cases hx : key x = n <;> simp [hx]

theorem filter_sortDescBy {α : Type} (key : α → Nat) (l : List α) (n : Nat) :
    (sortDescBy key l).filter (fun z => key z == n) = l.filter (fun z => key z == n) := by
  induction l with
  | nil => rfl
  | cons x xs ih =>
    simp only [sortDescBy, filter_insDesc, List.filter_cons]
    by_cases h : key x = n <;> simp [h, ih]

theorem insDesc_map {α β : Type} (k1 : α → Nat) (k2 : β → Nat) (f : α → β)
    (hk : ∀ a, k2 (f a) = k1 a) (x : α) (l : List α) :
    insDesc k2 (f x) (l.map f) = (insDesc k1 x l).map f := by
  induction l with
  | nil => simp [insDesc]
  | cons y ys ih =>
    simp only [List.map_cons, insDesc, hk]
    by_cases h : k1 x < k1 y <;> simp [h, ih]

theorem sortDescBy_map {α β : Type} (k1 : α → Nat) (k2 : β → Nat) (f : α → β)
    (hk : ∀ a, k2 (f a) = k1 a) (l : List α) :
    sortDescBy k2 (l.map f) = (sortDescBy k1 l).map f := by
  induction l with
  | nil => rfl
  | cons x xs ih =>
    simp only [List.map_cons, sortDescBy, ih]
    exact insDesc_map k1 k2 f hk x (sortDescBy k1 xs)

/-! ### Preservation lemmas for the handlers -/

theorem mapGet_delete_sub {α : Type} (m : List (String × α)) (k k2 : String) (v : α)
    (h : mapGet (mapDelete m k) k2 = some v) : mapGet m k2 = some v := by
  by_cases hk : k2 = k
  · rw [hk, mapGet_delete_self] at h
    exact absurd h (by simp)
  · rwa [mapGet_delete_other _ _ _ hk] at h

theorem db_startSprintCountdown (st : ServerState) (gid : String) :
    (startSprintCountdown st gid).db = st.db := by
  unfold startSprintCountdown
  cases mapGet st.sprintGames gid <;> rfl

theorem db_startSprintGame (st : ServerState) (gid : String) (now : Nat) :
    (startSprintGame st gid now).1.db = st.db := by
  unfold startSprintGame
  cases mapGet st.sprintGames gid <;> rfl

theorem db_sprintTick (st : ServerState) (gid : String) (now : Nat) :
    (sprintTick st gid now).1.db = st.db := by
  unfold sprintTick
  cases mapGet st.sprintGames gid with
  | none => rfl
  | some g =>
    by_cases h : g.countdown - 1 < 0
    · simp [h, db_startSprintGame]
    · simp [h]

theorem db_joinSprint (st : ServerState) (sid : String) (d : JoinData) :
    (joinSprint st sid d).1.db = st.db := by
  unfold joinSprint
  cases mapGet st.sprintGames d.gameId with
  | none => rfl
  | some g =>
    dsimp only
    split_ifs <;> simp [db_startSprintCountdown]

theorem db_tapStep (st : ServerState) (sid gid : String) :
    (tapStep st sid gid).1.db = st.db := by
  unfold tapStep
  cases mapGet st.sprintGames gid with
  | none => rfl
  | some g =>
    by_cases h : g.status ≠ GameStatus.active
    · simp [h]
    · simp only [if_neg h]
      cases mapGet g.players sid <;> rfl

theorem db_disconnectStep (st : ServerState) (sid : String) :
    (disconnectStep st sid).1.db = st.db := by
  unfold disconnectStep
  cases mapGet st.activePlayers sid with
  | none => rfl
  | some info =>
    dsimp only
    cases mapGet st.sprintGames info.gameId <;> rfl

theorem gameOf_startSprintCountdown_other (st : ServerState) (gid gid2 : String)
    (h : gid2 ≠ gid) : gameOf (startSprintCountdown st gid) gid2 = gameOf st gid2 := by
  unfold startSprintCountdown gameOf
  cases mapGet st.sprintGames gid with
  | none => rfl
  | some g => simpa using mapGet_set_other st.sprintGames gid gid2 _ h

theorem gameOf_joinSprint_other (st : ServerState) (sid : String) (d : JoinData) (gid : String)
    (h : gid ≠ d.gameId) : gameOf (joinSprint st sid d).1 gid = gameOf st gid := by
  unfold joinSprint
  cases mapGet st.sprintGames d.gameId with
  | none => rfl
  | some g =>
    dsimp only
    split_ifs with h1 h2
    · rfl
    · rw [show ((startSprintCountdown _ d.gameId : ServerState), _).1
            = (startSprintCountdown _ d.gameId : ServerState) from rfl,
          gameOf_startSprintCountdown_other _ _ _ h]
      simpa [gameOf] using mapGet_set_other st.sprintGames d.gameId gid _ h
    · simpa [gameOf] using mapGet_set_other st.sprintGames d.gameId gid _ h

/-! ### Tap lemmas -/

theorem tapStep_not_accepted (st : ServerState) (sid gid : String)
    (h : tapAccepted st sid gid = false) : tapStep st sid gid = (st, []) := by
  cases hm : mapGet st.sprintGames gid with
  | none => simp [tapStep, hm]
  | some g =>
    by_cases hs : g.status = GameStatus.active
    · cases hp : mapGet g.players sid with
      | none => simp [tapStep, hm, hs, hp]
      | some p =>
        exfalso
        simp [tapAccepted, hm, hs, hp] at h
    · simp [tapStep, hm, hs]

theorem tapAccepted_tapStep (st : ServerState) (a b sid gid : String) :
    tapAccepted (tapStep st a b).1 sid gid = tapAccepted st sid gid := by
  cases hm : mapGet st.sprintGames b with
  | none => simp [tapStep, hm]
  | some g =>
    by_cases hs : g.status = GameStatus.active
    · cases hp : mapGet g.players a with
      | none => simp [tapStep, hm, hs, hp]
      | some p =>
        by_cases hbg : gid = b
        · subst hbg
          by_cases hsa : sid = a
          · subst hsa
            simp [tapStep, hm, hs, hp, tapAccepted, mapGet_set_self]
          · simp [tapStep, hm, hs, hp, tapAccepted, mapGet_set_self,
                  mapGet_set_other _ _ _ _ hsa]
        · simp [tapStep, hm, hs, hp, tapAccepted, mapGet_set_other _ _ _ _ hbg]
    · simp [tapStep, hm, hs]

theorem tapsOf_tapStep (st : ServerState) (a b sid gid : String) (n : Nat)
    (h : tapsOf st gid sid = some n) :
    tapsOf (tapStep st a b).1 gid sid =
      some (if a = sid ∧ b = gid ∧ tapAccepted st sid gid = true then n + 1 else n) := by
  cases hm : mapGet st.sprintGames b with
  | none =>
    have hC : ¬ (a = sid ∧ b = gid ∧ tapAccepted st sid gid = true) := by
      rintro ⟨-, rfl, hacc⟩
      simp [tapAccepted, hm] at hacc
    simp [tapStep, hm, h, hC]
  | some g =>
    by_cases hs : g.status = GameStatus.active
    · cases hp : mapGet g.players a with
      | none =>
        have hC : ¬ (a = sid ∧ b = gid ∧ tapAccepted st sid gid = true) := by
          rintro ⟨rfl, rfl, hacc⟩
          simp [tapAccepted, hm, hp] at hacc
        simp [tapStep, hm, hs, hp, h, hC]
      | some p =>
        by_cases hb : b = gid
        · subst hb
          by_cases ha : a = sid
          · subst ha
            have hacc : tapAccepted st a b = true := by simp [tapAccepted, hm, hs, hp]
            have hn : n = p.taps := by
              simp [tapsOf, gameOf, hm, hp] at h
              omega
            subst hn
            simp [tapStep, hm, hs, hp, tapsOf, gameOf, mapGet_set_self, hacc]
          · have hC : ¬ (a = sid ∧ tapAccepted st sid b = true) := fun hh => ha hh.1
            have h2 : Option.map (fun q => q.taps) (mapGet g.players sid) = some n := by
              simpa [tapsOf, gameOf, hm] using h
            simp [tapStep, hm, hs, hp, tapsOf, gameOf, mapGet_set_self,
                  mapGet_set_other _ _ _ _ (Ne.symm ha), hC, h2]
        · have hC : ¬ (a = sid ∧ b = gid ∧ tapAccepted st sid gid = true) := by
            rintro ⟨-, hh, -⟩
            exact hb hh
          simp only [tapStep, hm, hs, hp]
          simp [tapsOf, gameOf, mapGet_set_other _ _ _ _ (Ne.symm hb), hC]
          simpa [tapsOf, gameOf] using h
    · have hC : ¬ (a = sid ∧ b = gid ∧ tapAccepted st sid gid = true) := by
        rintro ⟨-, rfl, hacc⟩
        simp [tapAccepted, hm, hs] at hacc
      simp [tapStep, hm, hs, h, hC]

theorem gameOf_tapStep_other (st : ServerState) (sid gid2 gid : String) (h : gid ≠ gid2) :
    gameOf (tapStep st sid gid2).1 gid = gameOf st gid := by
  cases hm : mapGet st.sprintGames gid2 with
  | none => simp [tapStep, hm]
  | some g =>
    by_cases hs : g.status = GameStatus.active
    · cases hp : mapGet g.players sid with
      | none => simp [tapStep, hm, hs, hp]
      | some p => simp [tapStep, hm, hs, hp, gameOf, mapGet_set_other _ _ _ _ h]
    · simp [tapStep, hm, hs]

theorem tapsOf_applyTaps (ts : List (String × String)) (st : ServerState) (sid gid : String)
    (n : Nat) (h : tapsOf st gid sid = some n) :
    tapsOf (applyTaps st ts) gid sid =
      some (n + if tapAccepted st sid gid = true
                then ts.countP (fun t => decide (t.1 = sid ∧ t.2 = gid)) else 0) := by
  induction ts generalizing st n with
  | nil => simpa [applyTaps] using h
  | cons t ts ih =>
    have hstep := tapsOf_tapStep st t.1 t.2 sid gid n h
    have hacc := tapAccepted_tapStep st t.1 t.2 sid gid
    rw [show applyTaps st (t :: ts) = applyTaps (tapStep st t.1 t.2).1 ts from rfl]
    rw [ih _ _ hstep, hacc]
    by_cases hA : tapAccepted st sid gid = true
    · by_cases ht : t.1 = sid ∧ t.2 = gid
      · have hcond : t.1 = sid ∧ t.2 = gid ∧ tapAccepted st sid gid = true :=
          ⟨ht.1, ht.2, hA⟩
        simp [hA, ht, hcond, List.countP_cons]
        omega
      · have hcond : ¬ (t.1 = sid ∧ t.2 = gid ∧ tapAccepted st sid gid = true) := by
          rintro ⟨h1, h2, -⟩
          exact ht ⟨h1, h2⟩
        simp [hA, ht, hcond, List.countP_cons]
    · have hcond : ¬ (t.1 = sid ∧ t.2 = gid ∧ tapAccepted st sid gid = true) := by
        rintro ⟨-, -, hx⟩
        exact hA hx
      simp [hA, hcond]

/-! ### Claim theorems -/

/-- C1: at the active-to-finished transition, `endSprintGame` sets the session's
status to `finished`; the broadcast ranking is a permutation of the final player
set, sorted descending by tap count, with ties kept in join (insertion) order —
hence deterministic; the winner is the head of the ranking (`none` exactly when
there are no players); exactly one result row is attempted per player in the
final set; which INSERT attempts fail does not change the broadcast; and
re-sorting the persisted rows by tap count reproduces the broadcast ranking. -/
theorem endSprint_finish_semantics (st : ServerState) (gid : String) (g : GameState)
    (ok : ResultRow → Bool) (hg : gameOf st gid = some g) :
    statusOf (endSprintGame ok st gid).1 gid = some GameStatus.finished ∧
    (endSprintGame ok st gid).2 =
      [Emission.gameEnded gid (sortDescBy Player.taps (mapValues g.players))
        (sortDescBy Player.taps (mapValues g.players)).head?] ∧
    List.Perm (sortDescBy Player.taps (mapValues g.players)) (mapValues g.players) ∧
    List.Sorted (fun p q => q.taps ≤ p.taps) (sortDescBy Player.taps (mapValues g.players)) ∧
    (∀ n : Nat, (sortDescBy Player.taps (mapValues g.players)).filter (fun q => q.taps == n)
        = (mapValues g.players).filter (fun q => q.taps == n)) ∧
    (mapValues g.players = [] ↔ (sortDescBy Player.taps (mapValues g.players)).head? = none) ∧
    (endSprintGame ok st gid).1.db
      = st.db ++ ((mapValues g.players).map (mkRow gid)).filter ok ∧
    ((mapValues g.players).map (mkRow gid)).length = (mapValues g.players).length ∧
    (∀ ok2, (endSprintGame ok2 st gid).2 = (endSprintGame ok st gid).2) ∧
    sortDescBy ResultRow.taps ((mapValues g.players).map (mkRow gid))
      = (sortDescBy Player.taps (mapValues g.players)).map (mkRow gid) := by
  have hm : mapGet st.sprintGames gid = some g := hg
  refine ⟨?_, ?_, sortDescBy_perm _ _, sortDescBy_sorted _ _,
    fun n => filter_sortDescBy _ _ n, ?_, ?_, List.length_map _ _, ?_, ?_⟩
  · simp [endSprintGame, hm, statusOf, gameOf, mapGet_set_self]
  · simp [endSprintGame, hm]
  · constructor
    · intro hv
      simp [hv, sortDescBy]
    · intro hn
      have hperm := sortDescBy_perm Player.taps (mapValues g.players)
      rw [List.head?_eq_none_iff] at hn
      rw [hn] at hperm
      exact (List.Perm.nil_eq hperm).symm
  · simp [endSprintGame, hm]
  · intro ok2
    simp [endSprintGame, hm]
  · exact sortDescBy_map Player.taps ResultRow.taps (mkRow gid) (fun p => rfl) _

/-- Witness for C1: in the two-player scenario (alice 7 taps, bob 3), the finish
broadcast ranks alice first and the attempted rows are one per player. -/
theorem endSprint_finish_semantics_wit :
    (endSprintGame allOk sTapped "g").2 =
      [Emission.gameEnded "g" [⟨"a", "alice", 7, true⟩, ⟨"b", "bob", 3, true⟩]
        (some ⟨"a", "alice", 7, true⟩)] ∧
    (endSprintGame allOk sTapped "g").1.db = [⟨"g", none, 7⟩, ⟨"g", none, 3⟩] := by
  have h := endSprint_finish_semantics sTapped "g"
    ⟨"g", GameStatus.active,
      [("a", ⟨"a", "alice", 7, true⟩), ("b", ⟨"b", "bob", 3, true⟩)],
      some 100, some 15100, -1, 15000⟩ allOk (by decide)
  refine ⟨?_, ?_⟩
  · rw [h.2.1]
    decide
  · rw [h.2.2.2.2.2.2.1]
    decide

/-- C2: a tap event for a known connection on an `active` session increments that
player's count by exactly 1 and broadcasts the delta; a tap for an unknown
session, a non-active session, or an unknown connection is a silent no-op; and
over any sequence of tap events, a player's final count equals the initial count
plus the number of accepted tap events attributed to that connection. -/
theorem tap_event_semantics (st : ServerState) (sid gid : String) :
    (tapAccepted st sid gid = false → tapStep st sid gid = (st, [])) ∧
    (∀ g p, gameOf st gid = some g → g.status = GameStatus.active →
      mapGet g.players sid = some p →
        tapsOf (tapStep st sid gid).1 gid sid = some (p.taps + 1) ∧
        (tapStep st sid gid).2 = [Emission.tapUpdate gid sid p.username (p.taps + 1)] ∧
        (∀ sid2, sid2 ≠ sid → tapsOf (tapStep st sid gid).1 gid sid2 = tapsOf st gid sid2) ∧
        (∀ gid2, gid2 ≠ gid → gameOf (tapStep st sid gid).1 gid2 = gameOf st gid2)) ∧
    (∀ ts n, tapsOf st gid sid = some n →
      tapsOf (applyTaps st ts) gid sid =
        some (n + if tapAccepted st sid gid = true
                  then ts.countP (fun t => decide (t.1 = sid ∧ t.2 = gid)) else 0)) := by
  refine ⟨tapStep_not_accepted st sid gid, ?_, fun ts n h => tapsOf_applyTaps ts st sid gid n h⟩
  intro g p hg hs hp
  have hm : mapGet st.sprintGames gid = some g := hg
  refine ⟨?_, ?_, ?_, ?_⟩
  · simp [tapStep, hm, hs, hp, tapsOf, gameOf, mapGet_set_self]
  · simp [tapStep, hm, hs, hp]
  · intro sid2 hne
    simp [tapStep, hm, hs, hp, tapsOf, gameOf, mapGet_set_self,
          mapGet_set_other _ _ _ _ hne]
  · intro gid2 hne
    simp [tapStep, hm, hs, hp, gameOf, mapGet_set_other _ _ _ _ hne]

/-- Witness for C2: in the active scenario state, a sequence with two accepted
taps from alice, one from bob, and one tap naming an unknown session leaves
alice's count at exactly 2. -/
theorem tap_event_semantics_wit :
    tapsOf (applyTaps sActive [("a", "g"), ("a", "g"), ("b", "g"), ("a", "x")]) "g" "a"
      = some 2 := by
  have h := (tap_event_semantics sActive "a" "g").2.2
    [("a", "g"), ("a", "g"), ("b", "g"), ("a", "x")] 0 (by decide)
  rw [h]
  decide

/-- C3: a join for an unknown session id fails with the not-found error; a join
while the session is `active` or `finished` fails with the already-started error
and mutates nothing; a join while `waiting` or `countdown` registers the
connection with `tapCount = 0` and broadcasts the updated roster together with
the session status; and a successful join while `waiting` moves the session to
`countdown` with the countdown reset to the configured 5 seconds. -/
theorem join_event_semantics (st : ServerState) (sid : String) (d : JoinData) :
    (gameOf st d.gameId = none →
      joinSprint st sid d = (st, [Emission.errorMsg sid "Game not found"])) ∧
    (∀ g, gameOf st d.gameId = some g →
      (g.status = GameStatus.active ∨ g.status = GameStatus.finished) →
      joinSprint st sid d = (st, [Emission.errorMsg sid "Game already started or finished"])) ∧
    (∀ g, gameOf st d.gameId = some g →
      (g.status = GameStatus.waiting ∨ g.status = GameStatus.countdown) →
      tapsOf (joinSprint st sid d).1 d.gameId sid = some 0 ∧
      (joinSprint st sid d).2 =
        [Emission.playersUpdated d.gameId
          (mapValues (mapSet g.players sid
            ⟨sid, jsOrName d.username (defaultName sid), 0, true⟩)) g.status] ∧
      (g.status = GameStatus.waiting →
        statusOf (joinSprint st sid d).1 d.gameId = some GameStatus.countdown ∧
        countdownOf (joinSprint st sid d).1 d.gameId = some 5) ∧
      (g.status = GameStatus.countdown →
        gameOf (joinSprint st sid d).1 d.gameId =
          some { g with players := (mapSet g.players sid
            ⟨sid, jsOrName d.username (defaultName sid), 0, true⟩) } )) := by
  refine ⟨?_, ?_, ?_⟩
  · intro hn
    have hm : mapGet st.sprintGames d.gameId = none := hn
    simp [joinSprint, hm]
  · intro g hg hsf
    have hm : mapGet st.sprintGames d.gameId = some g := hg
    have hc : g.status ≠ GameStatus.waiting ∧ g.status ≠ GameStatus.countdown := by
      rcases hsf with h1 | h1 <;> rw [h1] <;> exact ⟨by simp, by simp⟩
    simp [joinSprint, hm, hc]
  · intro g hg hwc
    have hm : mapGet st.sprintGames d.gameId = some g := hg
    have hc : ¬ (g.status ≠ GameStatus.waiting ∧ g.status ≠ GameStatus.countdown) := by
      rcases hwc with h1 | h1 <;> rw [h1] <;> simp
    rcases hwc with hw | hcd
    · have hauto : (mapSet g.players sid
          ⟨sid, jsOrName d.username (defaultName sid), 0, true⟩).length ≥ 1 ∧
          g.status = GameStatus.waiting :=
        ⟨mapSet_length_pos _ _ _, hw⟩
      refine ⟨?_, ?_, fun _ => ⟨?_, ?_⟩, fun hx => absurd hx (by rw [hw]; simp)⟩
      · simp [joinSprint, hm, hc, hauto, startSprintCountdown, tapsOf, gameOf,
              mapGet_set_self]
      · simp [joinSprint, hm, hc, hauto]
      · simp [joinSprint, hm, hc, hauto, startSprintCountdown, statusOf, gameOf,
              mapGet_set_self]
      · simp [joinSprint, hm, hc, hauto, startSprintCountdown, countdownOf, gameOf,
              mapGet_set_self]
    · have hauto : ¬ ((mapSet g.players sid
          ⟨sid, jsOrName d.username (defaultName sid), 0, true⟩).length ≥ 1 ∧
          g.status = GameStatus.waiting) := by
        rintro ⟨-, hx⟩
        rw [hcd] at hx
        exact absurd hx (by simp)
      refine ⟨?_, ?_, fun hx => absurd hx (by rw [hcd]; simp), fun _ => ?_⟩
      · simp [joinSprint, hm, hc, hauto, tapsOf, gameOf, mapGet_set_self]
      · simp [joinSprint, hm, hc, hauto]
      · simp [joinSprint, hm, hc, hauto, gameOf, mapGet_set_self]

/-- Witness for C3: joining the freshly created session `g` registers the player
with zero taps and starts the countdown at 5. -/
theorem join_event_semantics_wit :
    statusOf (joinSprint (createGame emptyState "g") "a" ⟨"g", some "alice", none⟩).1 "g"
      = some GameStatus.countdown ∧
    countdownOf (joinSprint (createGame emptyState "g") "a" ⟨"g", some "alice", none⟩).1 "g"
      = some 5 ∧
    tapsOf (joinSprint (createGame emptyState "g") "a" ⟨"g", some "alice", none⟩).1 "g" "a"
      = some 0 := by
  have h := (join_event_semantics (createGame emptyState "g") "a"
    ⟨"g", some "alice", none⟩).2.2 (initGame "g") (by decide) (Or.inl rfl)
  exact ⟨(h.2.2.1 rfl).1, (h.2.2.1 rfl).2, h.1⟩

/-- Counterexample for C4: in the joined scenario (countdown just started at 5),
one tick broadcasts the pre-decrement value 5 — not the post-decrement value 4
the claim asserts — while the stored countdown becomes 4. -/
theorem tick_broadcast_is_predecrement :
    (sprintTick sJoined "g" 100).2 = [Emission.countdownTick "g" 5] ∧
    countdownOf (sprintTick sJoined "g" 100).1 "g" = some 4 ∧
    (sprintTick sJoined "g" 100).2 ≠ [Emission.countdownTick "g" 4] := by decide

/-- C4 (amended): each tick decrements the countdown by exactly 1 and broadcasts
the pre-decrement value; when the decremented countdown passes below zero the
session becomes `active` with `startTime = now`,
`endTime = now + gameDuration` (the duration fixed at creation), and the start
event carrying the duration is broadcast after the final tick value. -/
theorem tick_semantics (st : ServerState) (gid : String) (now : Nat) (g : GameState)
    (hg : gameOf st gid = some g) :
    countdownOf (sprintTick st gid now).1 gid = some (g.countdown - 1) ∧
    ((sprintTick st gid now).2).head? = some (Emission.countdownTick gid g.countdown) ∧
    (¬ g.countdown - 1 < 0 →
      sprintTick st gid now =
        ({ st with sprintGames :=
             mapSet st.sprintGames gid { g with countdown := g.countdown - 1 } },
         [Emission.countdownTick gid g.countdown])) ∧
    (g.countdown - 1 < 0 →
      statusOf (sprintTick st gid now).1 gid = some GameStatus.active ∧
      (gameOf (sprintTick st gid now).1 gid).bind (fun q => q.startTime) = some now ∧
      (gameOf (sprintTick st gid now).1 gid).bind (fun q => q.endTime)
        = some (now + g.gameDuration) ∧
      (sprintTick st gid now).2 =
        [Emission.countdownTick gid g.countdown, Emission.gameStarted gid g.gameDuration]) := by
  have hm : mapGet st.sprintGames gid = some g := hg
  by_cases h : g.countdown - 1 < 0
  · refine ⟨?_, ?_, fun hx => absurd h hx, fun _ => ⟨?_, ?_, ?_, ?_⟩⟩ <;>
      simp [sprintTick, hm, h, startSprintGame, mapGet_set_self, countdownOf,
            statusOf, gameOf]
  · refine ⟨?_, ?_, fun _ => ?_, fun hx => absurd hx h⟩ <;>
      simp [sprintTick, hm, h, countdownOf, gameOf, mapGet_set_self]

/-- Witness for C4 (amended): one tick of the joined scenario stores countdown 4
and broadcasts 5. -/
theorem tick_semantics_wit :
    countdownOf (sprintTick sJoined "g" 100).1 "g" = some 4 ∧
    (sprintTick sJoined "g" 100).2 = [Emission.countdownTick "g" 5] := by
  have h := tick_semantics sJoined "g" 100
    ⟨"g", GameStatus.countdown,
      [("a", ⟨"a", "alice", 0, true⟩), ("b", ⟨"b", "bob", 0, true⟩)],
      none, none, 5, 15000⟩ (by decide)
  refine ⟨?_, ?_⟩
  · rw [h.1]
    decide
  · rw [(h.2.2.1 (by decide))]

/-- Counterexample for C5: in the finished scenario, alice is still on the
roster, yet processing her disconnect removes her from the `finished` session's
players map — the post-finish aggregate is not read-only. -/
theorem disconnect_after_finish_mutates :
    statusOf sFinished "g" = some GameStatus.finished ∧
    (mapGet (playersMap sFinished "g") "a").isSome = true ∧
    mapGet (playersMap (disconnectStep sFinished "a").1 "g") "a" = none ∧
    playersMap (disconnectStep sFinished "a").1 "g" ≠ playersMap sFinished "g" := by decide

/-- C5 (amended): once a session is `finished`, join and tap events leave its
aggregate entirely unchanged, and its status stays `finished` under disconnects;
but a disconnect of a tracked member deletes that player record — the roster can
only shrink, and every surviving record (hence every surviving tap count) equals
its snapshot at the finish transition. -/
theorem finished_roster_frozen (st : ServerState) (gid : String)
    (hfin : statusOf st gid = some GameStatus.finished) :
    (∀ sid d, gameOf (joinSprint st sid d).1 gid = gameOf st gid) ∧
    (∀ sid gid2, gameOf (tapStep st sid gid2).1 gid = gameOf st gid) ∧
    (∀ sid, statusOf (disconnectStep st sid).1 gid = some GameStatus.finished ∧
      ∀ sid2 p, mapGet (playersMap (disconnectStep st sid).1 gid) sid2 = some p →
        mapGet (playersMap st gid) sid2 = some p) := by
  have hex : ∃ g, mapGet st.sprintGames gid = some g ∧ g.status = GameStatus.finished := by
    unfold statusOf gameOf at hfin
    cases hm : mapGet st.sprintGames gid with
    | none => rw [hm] at hfin; exact absurd hfin (by simp)
    | some g =>
      rw [hm] at hfin
      exact ⟨g, rfl, by simpa using hfin⟩
  obtain ⟨g, hm, hsf⟩ := hex
  refine ⟨?_, ?_, ?_⟩
  · intro sid d
    by_cases hd : d.gameId = gid
    · subst hd
      have hc : g.status ≠ GameStatus.waiting ∧ g.status ≠ GameStatus.countdown := by
        rw [hsf]; exact ⟨by simp, by simp⟩
      simp [joinSprint, hm, hc]
    · exact gameOf_joinSprint_other st sid d gid (Ne.symm hd)
  · intro sid gid2
    by_cases hd : gid2 = gid
    · subst hd
      have hs : g.status ≠ GameStatus.active := by rw [hsf]; simp
      simp [tapStep, hm, hs]
    · exact gameOf_tapStep_other st sid gid2 gid (Ne.symm hd)
  · intro sid
    cases hi : mapGet st.activePlayers sid with
    | none =>
      constructor
      · simpa [disconnectStep, hi] using hfin
      · intro sid2 p hp
        simpa [disconnectStep, hi] using hp
    | some info =>
      cases hg2 : mapGet st.sprintGames info.gameId with
      | none =>
        constructor
        · simpa [disconnectStep, hi, hg2] using hfin
        · intro sid2 p hp
          simpa [disconnectStep, hi, hg2] using hp
      | some g2 =>
        by_cases hq : info.gameId = gid
        · subst hq
          have hgg : g2 = g := by rw [hm] at hg2; exact (Option.some.injEq _ _).mp hg2.symm
          subst hgg
          constructor
          · simp [disconnectStep, hi, hg2, statusOf, gameOf, mapGet_set_self, hsf]
          · intro sid2 p hp
            simp [disconnectStep, hi, hg2, playersMap, gameOf, mapGet_set_self] at hp
            simp [playersMap, gameOf, hm]
            exact mapGet_delete_sub _ _ _ _ hp
        · constructor
          · simp only [disconnectStep, hi, hg2]
            simpa [statusOf, gameOf, mapGet_set_other _ _ _ _ (Ne.symm hq)] using hfin
          · intro sid2 p hp
            simp only [disconnectStep, hi, hg2] at hp
            simpa [playersMap, gameOf, mapGet_set_other _ _ _ _ (Ne.symm hq)] using hp

/-- Witness for C5 (amended): in the finished scenario, a tap from alice leaves
the finished aggregate unchanged. -/
theorem finished_roster_frozen_wit :
    gameOf (tapStep sFinished "a" "g").1 "g" = gameOf sFinished "g" := by
  exact (finished_roster_frozen sFinished "g" (by decide)).2.1 "a" "g"

/-- Counterexample for C6: after the post-finish eviction the session is gone
from the registry, yet `GET /api/sprint/results` still answers with the ordered
rows — it never returns a session-not-found error after the grace window. -/
theorem results_survive_eviction :
    gameOf sEvicted "g" = none ∧
    getSprintResults sEvicted.db "g" = ResultsResponse.ok [⟨"g", none, 7⟩, ⟨"g", none, 3⟩] ∧
    getSprintResults sEvicted.db "g" ≠ ResultsResponse.notFound := by decide

/-- C6 (amended): `getResults` reads only the durable table: it returns the
session's persisted rows sorted descending by tap count, never a
session-not-found error, and its answer is unaffected by evicting the in-memory
aggregate — results remain queryable during and after the grace window. -/
theorem getResults_semantics (db : List ResultRow) (gid : String) :
    getSprintResults db gid
      = ResultsResponse.ok (sortDescBy ResultRow.taps (db.filter (fun r => r.game_id = gid))) ∧
    getSprintResults db gid ≠ ResultsResponse.notFound ∧
    List.Sorted (fun r q => q.taps ≤ r.taps)
      (sortDescBy ResultRow.taps (db.filter (fun r => r.game_id = gid))) ∧
    List.Perm (sortDescBy ResultRow.taps (db.filter (fun r => r.game_id = gid)))
      (db.filter (fun r => r.game_id = gid)) ∧
    (∀ st : ServerState, getSprintResults (evictGame st gid).db gid
      = getSprintResults st.db gid) := by
  refine ⟨rfl, by simp [getSprintResults], sortDescBy_sorted _ _, sortDescBy_perm _ _,
    fun st => rfl⟩

/-- Counterexample for C7: running the end-of-window callback again on the
already-finished scenario session mutates state — it appends a second set of
result rows and re-broadcasts — because `endSprintGame` checks only that the
game exists, never that it is still in the expected (`active`) phase. -/
theorem end_callback_rerun_mutates :
    statusOf sFinished "g" = some GameStatus.finished ∧
    (endSprintGame allOk sFinished "g").1.db
      = [⟨"g", none, 7⟩, ⟨"g", none, 3⟩, ⟨"g", none, 7⟩, ⟨"g", none, 3⟩] ∧
    (endSprintGame allOk sFinished "g").1.db ≠ sFinished.db ∧
    (endSprintGame allOk sFinished "g").2 ≠ [] := by decide

/-- C7 (amended): the timer-driven helpers guard only existence: on a session id
missing from the registry, `startSprintCountdown`, `startSprintGame` and
`endSprintGame` mutate nothing and broadcast nothing; they do not check the
phase, so a duplicate end-of-window callback for an existing already-`finished`
session re-appends its result rows and re-broadcasts the final standings. -/
theorem timer_callback_guards (st : ServerState) (gid : String) (now : Nat)
    (ok : ResultRow → Bool) :
    (gameOf st gid = none →
      startSprintCountdown st gid = st ∧
      startSprintGame st gid now = (st, []) ∧
      endSprintGame ok st gid = (st, [])) ∧
    (∀ g, gameOf st gid = some g → g.status = GameStatus.finished →
      (endSprintGame ok st gid).1.db
        = st.db ++ ((mapValues g.players).map (mkRow gid)).filter ok ∧
      (endSprintGame ok st gid).2
        = [Emission.gameEnded gid (sortDescBy Player.taps (mapValues g.players))
            (sortDescBy Player.taps (mapValues g.players)).head?]) := by
  refine ⟨?_, ?_⟩
  · intro hn
    have hm : mapGet st.sprintGames gid = none := hn
    exact ⟨by simp [startSprintCountdown, hm], by simp [startSprintGame, hm],
      by simp [endSprintGame, hm]⟩
  · intro g hg hsf
    have hm : mapGet st.sprintGames gid = some g := hg
    exact ⟨by simp [endSprintGame, hm], by simp [endSprintGame, hm]⟩

/-- Witness for C7 (amended): the end-of-window callback on a missing session id
leaves the empty server state untouched, and a re-run on the finished scenario
session re-appends both rows. -/
theorem timer_callback_guards_wit :
    endSprintGame allOk emptyState "nope" = (emptyState, []) ∧
    (endSprintGame allOk sFinished "g").1.db
      = sFinished.db ++ [⟨"g", none, 7⟩, ⟨"g", none, 3⟩] := by
  constructor
  · exact ((timer_callback_guards emptyState "nope" 0 allOk).1 (by decide)).2.2
  · have h := (timer_callback_guards sFinished "g" 0 allOk).2
      ⟨"g", GameStatus.finished,
        [("a", ⟨"a", "alice", 7, true⟩), ("b", ⟨"b", "bob", 3, true⟩)],
        some 100, some 15100, -1, 15000⟩ (by decide) rfl
    rw [h.1]
    decide

/-- Counterexample for C8: alice joined session `g`, the session was evicted, and
her later disconnect is processed — yet her tracker entry survives, because both
deletions in the disconnect handler sit inside the `if (game)` existence check.
The claim's "every processed disconnect removes it, including ... already
evicted" fails. -/
theorem tracker_leaks_after_eviction :
    gameOf sEvicted "g" = none ∧
    mapGet sEvicted.activePlayers "a" = some ⟨"g", some "alice"⟩ ∧
    (disconnectStep sEvicted "a").1 = sEvicted ∧
    mapGet (disconnectStep sEvicted "a").1.activePlayers "a" = some ⟨"g", some "alice"⟩ := by
  decide

/-- C8 (amended): every successful join inserts or overwrites the tracker entry
and registers the connection in that session's players map; a processed
disconnect removes both the tracker entry and the player record when the tracked
session still exists in the registry (even if already `finished`); but a
disconnect whose tracked session was already evicted changes nothing — the
tracker entry is retained; and a disconnect of an untracked connection is a
no-op. -/
theorem tracker_lockstep_semantics (st : ServerState) (sid : String) :
    (∀ d g, gameOf st d.gameId = some g →
      (g.status = GameStatus.waiting ∨ g.status = GameStatus.countdown) →
      mapGet (joinSprint st sid d).1.activePlayers sid = some ⟨d.gameId, d.username⟩ ∧
      (mapGet (playersMap (joinSprint st sid d).1 d.gameId) sid).isSome = true) ∧
    (∀ info g, mapGet st.activePlayers sid = some info →
      gameOf st info.gameId = some g →
      mapGet (disconnectStep st sid).1.activePlayers sid = none ∧
      mapGet (playersMap (disconnectStep st sid).1 info.gameId) sid = none) ∧
    (∀ info, mapGet st.activePlayers sid = some info →
      gameOf st info.gameId = none →
      disconnectStep st sid = (st, [])) ∧
    (mapGet st.activePlayers sid = none → disconnectStep st sid = (st, [])) := by
  refine ⟨?_, ?_, ?_, ?_⟩
  · intro d g hg hwc
    have hm : mapGet st.sprintGames d.gameId = some g := hg
    have hc : ¬ (g.status ≠ GameStatus.waiting ∧ g.status ≠ GameStatus.countdown) := by
      rcases hwc with h1 | h1 <;> rw [h1] <;> simp
    rcases hwc with hw | hcd
    · have hauto : (mapSet g.players sid
          ⟨sid, jsOrName d.username (defaultName sid), 0, true⟩).length ≥ 1 ∧
          g.status = GameStatus.waiting :=
        ⟨mapSet_length_pos _ _ _, hw⟩
      constructor
      · simp [joinSprint, hm, hc, hauto, startSprintCountdown, mapGet_set_self]
      · simp [joinSprint, hm, hc, hauto, startSprintCountdown, playersMap, gameOf,
              mapGet_set_self]
    · have hauto : ¬ ((mapSet g.players sid
          ⟨sid, jsOrName d.username (defaultName sid), 0, true⟩).length ≥ 1 ∧
          g.status = GameStatus.waiting) := by
        rintro ⟨-, hx⟩
        rw [hcd] at hx
        exact absurd hx (by simp)
      constructor
      · simp [joinSprint, hm, hc, hauto, mapGet_set_self]
      · simp [joinSprint, hm, hc, hauto, playersMap, gameOf, mapGet_set_self]
  · intro info g hi hg
    have hm : mapGet st.sprintGames info.gameId = some g := hg
    constructor
    · simp [disconnectStep, hi, hm, mapGet_delete_self]
    · simp [disconnectStep, hi, hm, playersMap, gameOf, mapGet_set_self,
            mapGet_delete_self]
  · intro info hi hn
    have hm : mapGet st.sprintGames info.gameId = none := hn
    simp [disconnectStep, hi, hm]
  · intro hi
    simp [disconnectStep, hi]

/-- Witness for C8 (amended): in the finished (not yet evicted) scenario, bob's
disconnect removes both his tracker entry and his player record. -/
theorem tracker_lockstep_semantics_wit :
    mapGet (disconnectStep sFinished "b").1.activePlayers "b" = none ∧
    mapGet (playersMap (disconnectStep sFinished "b").1 "g") "b" = none := by
  have h := (tracker_lockstep_semantics sFinished "b").2.1 ⟨"g", some "bob"⟩
    ⟨"g", GameStatus.finished,
      [("a", ⟨"a", "alice", 7, true⟩), ("b", ⟨"b", "bob", 3, true⟩)],
      some 100, some 15100, -1, 15000⟩ (by decide) (by decide)
  exact h

/-- Counterexample for C9: carol joins session `h` as an authenticated caller
whose resolved identity is user id 7 (carried in the join payload, which the
handler destructures only for `gameId` and `username`); after her two taps and
the finish transition, the persisted row records `user_id = null`, not 7. -/
theorem persisted_row_ignores_identity :
    sAuthEnd.db = [⟨"h", none, 2⟩] ∧
    sAuthEnd.db ≠ [⟨"h", some 7, 2⟩] := by decide

/-- C9 (amended): every row attempted at the finish transition carries
`user_id = null` — the join handler never reads credentials, so all sprint
participants are persisted as anonymous; exactly one row is attempted per player
in the final set; and no event other than the end-of-window callback ever writes
to the results table. -/
theorem rows_always_anonymous (st : ServerState) (gid : String) (g : GameState)
    (ok : ResultRow → Bool) (hg : gameOf st gid = some g) :
    (endSprintGame ok st gid).1.db
      = st.db ++ ((mapValues g.players).map (mkRow gid)).filter ok ∧
    (∀ r, r ∈ (mapValues g.players).map (mkRow gid) →
      r.user_id = none ∧ r.game_id = gid) ∧
    ((mapValues g.players).map (mkRow gid)).length = (mapValues g.players).length ∧
    (∀ st2 : ServerState, ∀ e : Event, (∀ gid2, e ≠ Event.endWindow gid2) →
      ((step st2 e).1).db = st2.db) := by
  have hm : mapGet st.sprintGames gid = some g := hg
  refine ⟨by simp [endSprintGame, hm], ?_, List.length_map _ _, ?_⟩
  · intro r hr
    rcases List.mem_map.mp hr with ⟨p, -, hp⟩
    rw [← hp]
    exact ⟨rfl, rfl⟩
  · intro st2 e he
    cases e with
    | create gid2 => rfl
    | join sid2 d2 => exact db_joinSprint st2 sid2 d2
    | tap sid2 gid2 => exact db_tapStep st2 sid2 gid2
    | disconnect sid2 => exact db_disconnectStep st2 sid2
    | tick gid2 now2 => exact db_sprintTick st2 gid2 now2
    | endWindow gid2 => exact absurd rfl (he gid2)
    | evict gid2 => rfl

/-- Witness for C9 (amended): the row attempted for alice in the scenario session
is anonymous. -/
theorem rows_always_anonymous_wit :
    (mkRow "g" ⟨"a", "alice", 7, true⟩).user_id = none := by
  have h := rows_always_anonymous sTapped "g"
    ⟨"g", GameStatus.active,
      [("a", ⟨"a", "alice", 7, true⟩), ("b", ⟨"b", "bob", 3, true⟩)],
      some 100, some 15100, -1, 15000⟩ allOk (by decide)
  exact (h.2.1 (mkRow "g" ⟨"a", "alice", 7, true⟩) (by decide)).1

/-- C10: the timer-driven phase transitions never inspect the player set: a tick
preserves the roster and moves the status as a function of the countdown alone,
activation preserves the roster, and the finish transition succeeds for any
roster; with zero remaining players it writes no rows and still broadcasts a
game-ended event with an empty results list and no winner. -/
theorem timers_ignore_players (st : ServerState) (gid : String) (now : Nat)
    (ok : ResultRow → Bool) (g : GameState) (hg : gameOf st gid = some g) :
    playersMap (sprintTick st gid now).1 gid = g.players ∧
    statusOf (sprintTick st gid now).1 gid =
      some (if g.countdown - 1 < 0 then GameStatus.active else g.status) ∧
    playersMap (startSprintGame st gid now).1 gid = g.players ∧
    statusOf (startSprintGame st gid now).1 gid = some GameStatus.active ∧
    statusOf (endSprintGame ok st gid).1 gid = some GameStatus.finished ∧
    playersMap (endSprintGame ok st gid).1 gid = g.players ∧
    (g.players = [] →
      (endSprintGame ok st gid).1.db = st.db ∧
      (endSprintGame ok st gid).2 = [Emission.gameEnded gid [] none]) := by
  have hm : mapGet st.sprintGames gid = some g := hg
  refine ⟨?_, ?_, ?_, ?_, ?_, ?_, ?_⟩
  · by_cases h : g.countdown - 1 < 0 <;>
      simp [sprintTick, hm, h, startSprintGame, mapGet_set_self, playersMap, gameOf]
  · by_cases h : g.countdown - 1 < 0 <;>
      simp [sprintTick, hm, h, startSprintGame, mapGet_set_self, statusOf, gameOf]
  · simp [startSprintGame, hm, playersMap, gameOf, mapGet_set_self]
  · simp [startSprintGame, hm, statusOf, gameOf, mapGet_set_self]
  · simp [endSprintGame, hm, statusOf, gameOf, mapGet_set_self]
  · simp [endSprintGame, hm, playersMap, gameOf, mapGet_set_self]
  · intro hempty
    constructor
    · simp [endSprintGame, hm, hempty, mapValues]
    · simp [endSprintGame, hm, hempty, mapValues, sortDescBy]

/-- Witness for C10: ending the freshly created zero-player session `g` writes no
rows and broadcasts an empty result list with no winner. -/
theorem timers_ignore_players_wit :
    (endSprintGame allOk (createGame emptyState "g") "g").1.db = emptyState.db ∧
    (endSprintGame allOk (createGame emptyState "g") "g").2
      = [Emission.gameEnded "g" [] none] := by
  have h := timers_ignore_players (createGame emptyState "g") "g" 0 allOk
    (initGame "g") (by decide)
  exact h.2.2.2.2.2.2 rfl
